import Mathlib

/-!
# Verification of the ALVR OpenXR engine decode/sync/filter core

A shallow embedding, over `Nat`, `Int`, `ℚ` and `ℝ`, of the core components of
the `alxr_engine` sources:

* `FrameIndexMap` — the bounded timestamp→frame-index correlation table of
  `decoderplugin_mediacodec.cpp`;
* the session-management and packet-submission behaviour of
  `MediaCodecDecoderPlugin` (`QueuePacket`, `OnCodecError`, the `Run` loop body);
* the foveated-decode parameter derivation of `foveation.h`;
* the one-euro filter family of `one_euro_filter.h`.

Machine integers are embedded as `Nat` (with explicit `% 2 ^ 64` where a cast
matters), float arithmetic as exact arithmetic over `ℚ` where the source uses
only field operations and rounding, and over `ℝ` where it uses transcendental
functions (`sqrt`, `acos`, `sin`, `π`).  External effects (the Android
MediaCodec API, the steady clock, queue timeouts) are passed in explicitly as
per-call environment values.
-/

namespace ALXR

/-! ## FrameIndexMap (decoderplugin_mediacodec.cpp, lines 44-81)

The C++ table is a `std::vector<std::atomic<uint64_t>>` of fixed size `N`;
slot `ts % N` holds the most recently stored frame index.  We embed the table
as a list of `Nat` slots; the atomic single-slot loads/stores/exchanges of the
source become pure reads and single-slot list updates. -/

structure FrameIndexMap where
  slots : List Nat
  deriving DecidableEq

namespace FrameIndexMap

/-- `FrameIndexMap::NullIndex = FrameIndex(-1)` on `uint64_t`. -/
def NullIndex : Nat := 2 ^ 64 - 1

/-- The constructor `FrameIndexMap(N) : m_frameMap(N)`.
`std::vector<std::atomic<uint64_t>>(N)` value-initializes its `N` elements,
which zero-initializes each atomic: every slot starts at `0`, not at
`NullIndex`. -/
def mkNew (N : Nat) : FrameIndexMap := ⟨List.replicate N 0⟩

/-- `index(ts) = ts % m_frameMap.size()`. -/
def index (m : FrameIndexMap) (ts : Nat) : Nat := ts % m.slots.length

/-- `set(ts, newIdx)`: `m_frameMap[index(ts)].store(newIdx)`. -/
def set (m : FrameIndexMap) (ts newIdx : Nat) : FrameIndexMap :=
  ⟨m.slots.set (m.index ts) newIdx⟩

/-- `get(ts)`: `m_frameMap[index(ts)].load()`.  A pure read: it takes no lock
and mutates nothing (the model's type returns no updated map). -/
def get (m : FrameIndexMap) (ts : Nat) : Nat :=
  m.slots.getD (m.index ts) 0

/-- `get_clear(ts)`: `m_frameMap[index(ts)].exchange(NullIndex)` — returns the
old slot value and atomically resets the slot to `NullIndex`. -/
def get_clear (m : FrameIndexMap) (ts : Nat) : Nat × FrameIndexMap :=
  (m.get ts, ⟨m.slots.set (m.index ts) NullIndex⟩)

end FrameIndexMap

/-- Apply a chronological sequence of `set(pts, idx)` calls (head first). -/
def applySets (m : FrameIndexMap) (ops : List (Nat × Nat)) : FrameIndexMap :=
  ops.foldl (fun acc op => acc.set op.1 op.2) m

/-- The frame index written by the most recent operation in `ops` whose
timestamp is congruent to `pts` modulo `N` (later list entries are more
recent and shadow earlier ones), if any. -/
def lastCongruentIdx (N pts : Nat) : List (Nat × Nat) → Option Nat
  | [] => none
  | op :: rest =>
      (lastCongruentIdx N pts rest).orElse
        (fun _ => if op.1 % N = pts % N then some op.2 else none)

/-! ## MediaCodecDecoderPlugin (decoderplugin_mediacodec.cpp, lines 236-544)

We model the session-management and frame-index bookkeeping of the plugin.
The Android MediaCodec API, the bounded queues' timeouts and the steady clock
are external effects: each `QueuePacket` call receives their outcomes in an
explicit `QueueEnv` value.  Session identity is tracked with a ghost
`sessionId` (a counter incremented on each successful `MakeCodecContext`), so
that "a new decoder session is constructed" is observable in the model. -/

/-- The per-session state (`MediaCodecDecoderPlugin::CodecCtx`): the image
listener's `FrameIndexMap` plus a ghost identifier for the codec session. -/
structure CodecCtx where
  sessionId : Nat
  frameIndexMap : FrameIndexMap
  deriving DecidableEq

/-- The classification of an incoming packet.

Modelled from the spec: the classifier functions `find_vpssps`, `is_idr` and
`is_config` live in `nal_utils.h`, which is not part of the sources; the spec
says packets are classified (config / IDR / delta) by inspecting
codec-specific start-code prefixes.  `vpsspsSize` is the length of the
VPS/SPS/PPS parameter-set run found by `find_vpssps`; `payloadIsIdr` and
`payloadIsConfig` are `is_idr` / `is_config` applied to the payload after
that run, as `QueuePacket` does. -/
structure Packet where
  vpsspsSize : Nat
  payloadIsIdr : Bool
  payloadIsConfig : Bool
  deriving DecidableEq

/-- Outcomes of the external effects touched by one `QueuePacket` call:
whether `MakeCodecContext` would succeed, the result of the 100 ms wait on the
input-buffer queue, whether `AMediaCodec_queueInputBuffer` returns `AMEDIA_OK`,
and the value `MakePTS()` would return (the steady clock in microseconds). -/
structure QueueEnv where
  ctorOk : Bool
  inputBufferId : Option Int
  queueOk : Bool
  nowUs : Nat
  deriving DecidableEq

/-- Mutable plugin state: `m_codecCtx` plus the ghost session counter. -/
structure MediaCodecDecoderPlugin where
  codecCtx : Option CodecCtx
  nextSessionId : Nat
  deriving DecidableEq

/-- Observable result of one `QueuePacket` call: the returned `bool`, the
`LatencyCollector::decoderInput` call-out (if made), the `(pts, bufferId)`
pair passed to `AMediaCodec_queueInputBuffer` (if reached), and whether
`setWaitingNextIDR(false)` was issued. -/
structure QueueResult where
  returned : Bool
  decoderInputEvent : Option Nat
  submitted : Option (Nat × Nat)
  clearedWaitingIdr : Bool
  deriving DecidableEq

namespace MediaCodecDecoderPlugin

/-- The lazy session-construction phase at the top of `QueuePacket`:
`if (m_codecCtx == nullptr && vpssps.size() > 0) m_codecCtx = MakeCodecContext(vpssps);`.
`MakeCodecContext` may fail (surface, codec creation, configure or start
failure), in which case `m_codecCtx` stays null; on success the new context
holds a fresh `FrameIndexMap{4096}`. -/
def ctorPhase (s : MediaCodecDecoderPlugin) (env : QueueEnv) (p : Packet) :
    MediaCodecDecoderPlugin :=
  if s.codecCtx = none ∧ 0 < p.vpsspsSize then
    if env.ctorOk then
      { codecCtx := some ⟨s.nextSessionId, FrameIndexMap.mkNew 4096⟩,
        nextSessionId := s.nextSessionId + 1 }
    else s
  else s

/-- `MediaCodecDecoderPlugin::QueuePacket` (lines 281-335), as a function of
the plugin state, the per-call environment, the packet classification and the
tracking frame index. -/
def QueuePacket (s : MediaCodecDecoderPlugin) (env : QueueEnv) (p : Packet)
    (trackingFrameIndex : Nat) : MediaCodecDecoderPlugin × QueueResult :=
  let s1 := ctorPhase s env p
  match s1.codecCtx with
  | none => (s1, ⟨false, none, none, false⟩)
  | some ctx =>
    match env.inputBufferId with
    | none => (s1, ⟨false, none, none, false⟩)
    | some bid =>
      if bid < 0 then (s1, ⟨false, none, none, false⟩) else
      let clearedIdr := p.payloadIsIdr
      let isConfig := p.payloadIsConfig
      let inputEvent := if isConfig then none else some trackingFrameIndex
      let pts := if isConfig then 0 else env.nowUs
      let ctx' :=
        if isConfig then ctx
        else { ctx with
               frameIndexMap := ctx.frameIndexMap.set pts trackingFrameIndex }
      let s2 := { s1 with codecCtx := some ctx' }
      (s2, ⟨env.queueOk, inputEvent, some (pts, bid.toNat), clearedIdr⟩)

/-- `MediaCodecDecoderPlugin::OnCodecError` (lines 337-339): it writes a log
line and nothing else — the plugin state (in particular `m_codecCtx`) is left
untouched. -/
def OnCodecError (s : MediaCodecDecoderPlugin) (_error _actionCode : Int) :
    MediaCodecDecoderPlugin := s

end MediaCodecDecoderPlugin

/-- One `{presentationTimeUs, bufferId}` entry of the output-buffer queue. -/
structure OutputBufferId where
  presentationTimeUs : Int
  bufferId : Nat
  deriving DecidableEq

/-- `static_cast<std::uint64_t>(buffInfo.presentationTimeUs)`. -/
def OutputBufferId.ptsUs (b : OutputBufferId) : Nat :=
  (b.presentationTimeUs % (2 : Int) ^ 64).toNat

/-- Observable effects of one iteration of the `Run` loop body: the
`LatencyCollector::decoderOutput` call-out (if made) and the buffer id passed
to `AMediaCodec_releaseOutputBuffer(..., true)` (if any). -/
structure RunIterResult where
  decoderOutputEvent : Option Nat
  releasedBuffer : Option Nat
  deriving DecidableEq

/-- The body of `MediaCodecDecoderPlugin::Run`'s loop (lines 528-540) for one
successfully dequeued output buffer, acting on the session's `FrameIndexMap`:
look the frame index up with `get`, report `decoderOutput` only on a
non-sentinel hit, and release the output buffer for rendering either way. -/
def RunIteration (m : FrameIndexMap) (b : OutputBufferId) :
    FrameIndexMap × RunIterResult :=
  let frameIndex := m.get b.ptsUs
  let event :=
    if frameIndex ≠ FrameIndexMap.NullIndex then some frameIndex else none
  (m, ⟨event, some b.bufferId⟩)

/-! ## Foveated-decode parameter derivation (foveation.h, lines 24-71)

`MakeFoveatedDecodeBaseParams` uses only field operations and `std::ceil`, so
we embed its float arithmetic exactly over `ℚ`, with `Int.ceil` for
`std::ceil` and `Int.toNat` for the `(uint32_t)` cast of a non-negative
(possibly `-0.0`) float.  (Float-to-`uint32_t` conversion is defined in C++
only for values in `(-1, 2^32)`, so within the defined range `Int.toNat` is
exact and no wraparound is modelled.)  The two axes run the same formulas, so we factor the
per-axis computation into `foveAxis` and keep its intermediates (the source's
local variables) as record fields. -/

/-- `XrVector2f`, over exact rationals. -/
structure Vec2 where
  x : ℚ
  y : ℚ
  deriving DecidableEq

/-- `ALXR::FoveatedDecodeBaseParams`. -/
structure FoveatedDecodeBaseParams where
  eyeSizeRatio : Vec2
  centerSize : Vec2
  centerShift : Vec2
  edgeRatio : Vec2
  deriving DecidableEq

/-- The locals of `MakeFoveatedDecodeBaseParams` for one axis. -/
structure FoveAxis where
  edgeSize : ℚ
  centerSizeAligned : ℚ
  edgeSizeAligned : ℚ
  centerShiftAligned : ℚ
  foveationScale : ℚ
  optimizedEyeSize : ℚ
  optimizedEyeSizeAligned : ℕ
  eyeSizeRatioAligned : ℚ
  deriving DecidableEq

/-- One axis of `MakeFoveatedDecodeBaseParams` (foveation.h, lines 40-63). -/
def foveAxis (targetEyeSize centerSize centerShift edgeRatio : ℚ) : FoveAxis :=
  let edgeSize := targetEyeSize - centerSize * targetEyeSize
  let centerSizeAligned : ℚ :=
    1 - (⌈edgeSize / (edgeRatio * 2)⌉ : ℚ) * (edgeRatio * 2) / targetEyeSize
  let edgeSizeAligned := targetEyeSize - centerSizeAligned * targetEyeSize
  let centerShiftAligned : ℚ :=
    (⌈centerShift * edgeSizeAligned / (edgeRatio * 2)⌉ : ℚ) * (edgeRatio * 2) /
      edgeSizeAligned
  let foveationScale := centerSizeAligned + (1 - centerSizeAligned) / edgeRatio
  let optimizedEyeSize := foveationScale * targetEyeSize
  -- round the frame dimension up to a pixel multiple of 32 for the encoder
  let optimizedEyeSizeAligned : ℕ := (⌈optimizedEyeSize / 32⌉).toNat * 32
  let eyeSizeRatioAligned := optimizedEyeSize / (optimizedEyeSizeAligned : ℚ)
  ⟨edgeSize, centerSizeAligned, edgeSizeAligned, centerShiftAligned,
    foveationScale, optimizedEyeSize, optimizedEyeSizeAligned,
    eyeSizeRatioAligned⟩

/-- `ALXR::MakeFoveatedDecodeBaseParams` (foveation.h, lines 32-71). -/
def MakeFoveatedDecodeBaseParams
    (targetEyeSize centerSize centerShift edgeRatio : Vec2) :
    FoveatedDecodeBaseParams :=
  let ax := foveAxis targetEyeSize.x centerSize.x centerShift.x edgeRatio.x
  let ay := foveAxis targetEyeSize.y centerSize.y centerShift.y edgeRatio.y
  { eyeSizeRatio := ⟨ax.eyeSizeRatioAligned, ay.eyeSizeRatioAligned⟩,
    centerSize := ⟨ax.centerSizeAligned, ay.centerSizeAligned⟩,
    centerShift := ⟨ax.centerShiftAligned, ay.centerShiftAligned⟩,
    edgeRatio := ⟨edgeRatio.x, edgeRatio.y⟩ }

/-! ## One-euro filter family (one_euro_filter.h)

The filters compute with `float` vectors and quaternions through Eigen; their
arithmetic involves `sqrt`, `acos`, `sin` and `π`, so we embed the signal
values over `ℝ`.  Filter state objects mirror the C++ members
(`_hatxprev`, `_firstTime`, `_params`); each `filter` member function becomes
a pure function returning the result together with the updated state.  The
C++ `OneEuroFilter<Filterable>` template is instantiated twice in the source
(`Vector3OneEuroFilter`, `QuatOneEuroFilter`); we embed the two
instantiations. -/

/-- `Eigen::Vector3f`, over `ℝ`. -/
structure Vec3 where
  x : ℝ
  y : ℝ
  z : ℝ

/-- Componentwise `Eigen` vector arithmetic: `a * x + b * y`. -/
noncomputable def Vec3.axpby (a : ℝ) (v : Vec3) (b : ℝ) (w : Vec3) : Vec3 :=
  ⟨a * v.x + b * w.x, a * v.y + b * w.y, a * v.z + b * w.z⟩

/-- `Eigen::Quaternionf` (coefficients `x, y, z, w`), over `ℝ`. -/
structure Quat where
  x : ℝ
  y : ℝ
  z : ℝ
  w : ℝ

namespace Quat

noncomputable def identity : Quat := ⟨0, 0, 0, 1⟩

/-- The Euclidean coefficient-wise dot product of two quaternions. -/
noncomputable def dot (q r : Quat) : ℝ := q.x * r.x + q.y * r.y + q.z * r.z + q.w * r.w

noncomputable def conjugate (q : Quat) : Quat := ⟨-q.x, -q.y, -q.z, q.w⟩

/-- Modelled from Eigen: the Hamilton product `q * r` of
`Eigen::Quaternion::operator*`. -/
noncomputable def mul (q r : Quat) : Quat :=
  ⟨q.w * r.x + q.x * r.w + q.y * r.z - q.z * r.y,
   q.w * r.y + q.y * r.w + q.z * r.x - q.x * r.z,
   q.w * r.z + q.z * r.w + q.x * r.y - q.y * r.x,
   q.w * r.w - q.x * r.x - q.y * r.y - q.z * r.z⟩

/-- Modelled from Eigen: `Eigen::Quaternion::inverse` — the conjugate divided
by the squared norm, or the zero quaternion when the squared norm is zero. -/
noncomputable def inverse (q : Quat) : Quat :=
  let n2 := q.dot q
  if 0 < n2 then ⟨-q.x / n2, -q.y / n2, -q.z / n2, q.w / n2⟩
  else ⟨0, 0, 0, 0⟩

/-- Modelled from Eigen: `normalized()` divides every coefficient by the norm
`sqrt (q.dot q)` (no zero check in Eigen). -/
noncomputable def normalized (q : Quat) : Quat :=
  let n := Real.sqrt (q.dot q)
  ⟨q.x / n, q.y / n, q.z / n, q.w / n⟩

/-- Modelled from Eigen: `q.slerp(t, other)`.  Eigen compares `|q.dot other|`
against one: at or above one it interpolates linearly with weights `1 - t`
and `t`; below one it uses the spherical weights
`sin((1-t)θ)/sin θ` and `sin(tθ)/sin θ` with `θ = acos |d|`, flipping the
second weight's sign when `d < 0`. -/
noncomputable def slerp (q : Quat) (t : ℝ) (other : Quat) : Quat :=
  let d := q.dot other
  let absD := |d|
  let scales : ℝ × ℝ :=
    if 1 ≤ absD then (1 - t, t)
    else
      let theta := Real.arccos absD
      let sinTheta := Real.sin theta
      (Real.sin ((1 - t) * theta) / sinTheta, Real.sin (t * theta) / sinTheta)
  let scale1 := if d < 0 then -scales.2 else scales.2
  ⟨scales.1 * q.x + scale1 * other.x,
   scales.1 * q.y + scale1 * other.y,
   scales.1 * q.z + scale1 * other.z,
   scales.1 * q.w + scale1 * other.w⟩

end Quat

/-- `ALXR::Vector3LowPassFilter` (one_euro_filter.h, lines 33-58). -/
structure Vector3LowPassFilter where
  hatxprev : Vec3
  firstTime : Bool

namespace Vector3LowPassFilter

/-- Member initializers: `_hatxprev = Eigen::Vector3f::Zero()`,
`_firstTime = true`. -/
noncomputable def init : Vector3LowPassFilter := ⟨⟨0, 0, 0⟩, true⟩

/-- `filter(x, alpha)` (lines 40-47): on the first call `_hatxprev` is first
set to `x`; then `hatx = alpha * x + (1 - alpha) * _hatxprev` is stored and
returned. -/
noncomputable def filter (f : Vector3LowPassFilter) (x : Vec3) (alpha : ℝ) :
    Vec3 × Vector3LowPassFilter :=
  let prev := if f.firstTime then x else f.hatxprev
  let hatx := Vec3.axpby alpha x (1 - alpha) prev
  (hatx, ⟨hatx, false⟩)

/-- `reset()` (line 49): only `_firstTime` is reset; `_hatxprev` keeps its
stale value. -/
def reset (f : Vector3LowPassFilter) : Vector3LowPassFilter :=
  { f with firstTime := true }

end Vector3LowPassFilter

/-- `ALXR::QuaternionLowPassFilter` (one_euro_filter.h, lines 61-83). -/
structure QuaternionLowPassFilter where
  hatxprev : Quat
  firstTime : Bool

namespace QuaternionLowPassFilter

/-- Member initializers: `_hatxprev = QuatType::Identity()`,
`_firstTime = true`. -/
noncomputable def init : QuaternionLowPassFilter := ⟨Quat.identity, true⟩

/-- `filter(x, alpha)` (lines 66-72): on the first call `_hatxprev` is first
set to `x`; then `_hatxprev = _hatxprev.slerp(alpha, x)` is stored and
returned. -/
noncomputable def filter (f : QuaternionLowPassFilter) (x : Quat) (alpha : ℝ) :
    Quat × QuaternionLowPassFilter :=
  let prev := if f.firstTime then x else f.hatxprev
  let hatx := prev.slerp alpha x
  (hatx, ⟨hatx, false⟩)

/-- `reset()` (line 78). -/
def reset (f : QuaternionLowPassFilter) : QuaternionLowPassFilter :=
  { f with firstTime := true }

end QuaternionLowPassFilter

namespace Vector3Filterable
/-! `ALXR::Vector3Filterable` (one_euro_filter.h, lines 85-108). -/

noncomputable def dxIdentity : Vec3 := ⟨0, 0, 0⟩

/-- `computeDerivative(prev, current, dt) = (current - prev) * (1 / dt)`. -/
noncomputable def computeDerivative (prev current : Vec3) (dt : ℝ) : Vec3 :=
  ⟨(current.x - prev.x) * (1 / dt), (current.y - prev.y) * (1 / dt),
   (current.z - prev.z) * (1 / dt)⟩

/-- `computeDerivativeMagnitude(dx) = dx.stableNorm()` — mathematically the
Euclidean norm (Eigen's `stableNorm` only rescales to avoid float
overflow/underflow). -/
noncomputable def computeDerivativeMagnitude (dx : Vec3) : ℝ :=
  Real.sqrt (dx.x ^ 2 + dx.y ^ 2 + dx.z ^ 2)

end Vector3Filterable

namespace QuaternionFilterable
/-! `ALXR::QuaternionFilterable` (one_euro_filter.h, lines 110-143). -/

noncomputable def dxIdentity : Quat := Quat.identity

/-- The intermediate of `computeDerivative` before normalization
(lines 128-135): `dx = current * prev.inverse()` with its vector part scaled
by `rate = 1/dt` and `dx.w = dx.w * rate + (1 - rate)` (nlerp-style rate
scaling). -/
noncomputable def scaledDeriv (prev current : Quat) (dt : ℝ) : Quat :=
  let rate : ℝ := 1 / dt
  let dx := current.mul prev.inverse
  ⟨dx.x * rate, dx.y * rate, dx.z * rate, dx.w * rate + (1 - rate)⟩

/-- `computeDerivative(prev, current, dt)` (lines 126-137): the scaled
difference quaternion, renormalized. -/
noncomputable def computeDerivative (prev current : Quat) (dt : ℝ) : Quat :=
  (scaledDeriv prev current dt).normalized

/-- `computeDerivativeMagnitude(dx) = 2 * acos(dx.w)` (lines 139-142). -/
noncomputable def computeDerivativeMagnitude (dx : Quat) : ℝ :=
  2 * Real.arccos dx.w

end QuaternionFilterable

/-- `OneEuroFilter<Filterable>::Params` (one_euro_filter.h, lines 158-162). -/
structure OneEuroParams where
  mincutoff : ℝ := 1
  beta : ℝ := 0.5
  dcutoff : ℝ := 1

/-- `OneEuroFilter::alpha(dt, cutoff)` (lines 191-194):
`tau = 1 / (2 π cutoff)`, `alpha = 1 / (1 + tau / dt)`. -/
noncomputable def oneEuroAlpha (dt cutoff : ℝ) : ℝ :=
  let tau := 1 / (2 * Real.pi * cutoff)
  1 / (1 + tau / dt)

/-- `Vector3OneEuroFilter = OneEuroFilter<Vector3Filterable>`: members
`_firstTime`, `_xfilt`, `_dxfilt`, `_params`. -/
structure Vector3OneEuroFilter where
  firstTime : Bool
  xfilt : Vector3LowPassFilter
  dxfilt : Vector3LowPassFilter
  params : OneEuroParams

namespace Vector3OneEuroFilter

/-- The constructor `OneEuroFilter(params)`. -/
noncomputable def mk0 (p : OneEuroParams) : Vector3OneEuroFilter :=
  ⟨true, Vector3LowPassFilter.init, Vector3LowPassFilter.init, p⟩

/-- `filter(dt, x)` (one_euro_filter.h, lines 175-188), instantiated at
`Vector3Filterable`. -/
noncomputable def filter (f : Vector3OneEuroFilter) (dt : ℝ) (x : Vec3) :
    Vec3 × Vector3OneEuroFilter :=
  let dx :=
    if f.firstTime then Vector3Filterable.dxIdentity
    else Vector3Filterable.computeDerivative f.xfilt.hatxprev x dt
  let dres := f.dxfilt.filter dx (oneEuroAlpha dt f.params.dcutoff)
  let derivativeMagnitude := Vector3Filterable.computeDerivativeMagnitude dres.1
  let cutoff := f.params.mincutoff + f.params.beta * derivativeMagnitude
  let xres := f.xfilt.filter x (oneEuroAlpha dt cutoff)
  (xres.1, ⟨false, xres.2, dres.2, f.params⟩)

/-- `reset()` (lines 169-173). -/
def reset (f : Vector3OneEuroFilter) : Vector3OneEuroFilter :=
  ⟨true, f.xfilt.reset, f.dxfilt.reset, f.params⟩

/-- Feed a whole input sequence at fixed `dt`, collecting the outputs. -/
noncomputable def run (f : Vector3OneEuroFilter) (dt : ℝ) :
    List Vec3 → List Vec3 × Vector3OneEuroFilter
  | [] => ([], f)
  | x :: xs =>
      let r := f.filter dt x
      let rest := r.2.run dt xs
      (r.1 :: rest.1, rest.2)

end Vector3OneEuroFilter

/-- `QuatOneEuroFilter = OneEuroFilter<QuaternionFilterable>`. -/
structure QuatOneEuroFilter where
  firstTime : Bool
  xfilt : QuaternionLowPassFilter
  dxfilt : QuaternionLowPassFilter
  params : OneEuroParams

namespace QuatOneEuroFilter

/-- The constructor `OneEuroFilter(params)`. -/
noncomputable def mk0 (p : OneEuroParams) : QuatOneEuroFilter :=
  ⟨true, QuaternionLowPassFilter.init, QuaternionLowPassFilter.init, p⟩

/-- `filter(dt, x)` (one_euro_filter.h, lines 175-188), instantiated at
`QuaternionFilterable`. -/
noncomputable def filter (f : QuatOneEuroFilter) (dt : ℝ) (x : Quat) :
    Quat × QuatOneEuroFilter :=
  let dx :=
    if f.firstTime then QuaternionFilterable.dxIdentity
    else QuaternionFilterable.computeDerivative f.xfilt.hatxprev x dt
  let dres := f.dxfilt.filter dx (oneEuroAlpha dt f.params.dcutoff)
  let derivativeMagnitude :=
    QuaternionFilterable.computeDerivativeMagnitude dres.1
  let cutoff := f.params.mincutoff + f.params.beta * derivativeMagnitude
  let xres := f.xfilt.filter x (oneEuroAlpha dt cutoff)
  (xres.1, ⟨false, xres.2, dres.2, f.params⟩)

/-- `reset()` (lines 169-173). -/
def reset (f : QuatOneEuroFilter) : QuatOneEuroFilter :=
  ⟨true, f.xfilt.reset, f.dxfilt.reset, f.params⟩

/-- Feed a whole input sequence at fixed `dt`, collecting the outputs. -/
noncomputable def run (f : QuatOneEuroFilter) (dt : ℝ) :
    List Quat → List Quat × QuatOneEuroFilter
  | [] => ([], f)
  | x :: xs =>
      let r := f.filter dt x
      let rest := r.2.run dt xs
      (r.1 :: rest.1, rest.2)

end QuatOneEuroFilter

/-- Iterate the plain `Vector3LowPassFilter` at a fixed `alpha` — the
fixed-cutoff low-pass reference for the `beta = 0` degenerate case. -/
noncomputable def Vector3LowPassFilter.run (f : Vector3LowPassFilter) (alpha : ℝ) :
    List Vec3 → List Vec3 × Vector3LowPassFilter
  | [] => ([], f)
  | x :: xs =>
      let r := f.filter x alpha
      let rest := r.2.run alpha xs
      (r.1 :: rest.1, rest.2)

/-- Iterate the plain `QuaternionLowPassFilter` at a fixed `alpha`. -/
noncomputable def QuaternionLowPassFilter.run (f : QuaternionLowPassFilter)
    (alpha : ℝ) : List Quat → List Quat × QuaternionLowPassFilter
  | [] => ([], f)
  | x :: xs =>
      let r := f.filter x alpha
      let rest := r.2.run alpha xs
      (r.1 :: rest.1, rest.2)

end ALXR

namespace ALXR

-- basic slot lemmas

theorem FrameIndexMap.length_set (m : FrameIndexMap) (ts idx : Nat) :
    (m.set ts idx).slots.length = m.slots.length := by
  simp [FrameIndexMap.set]

theorem FrameIndexMap.get_set (m : FrameIndexMap) (ts idx pts : Nat)
    (hN : 0 < m.slots.length) :
    (m.set ts idx).get pts =
      if ts % m.slots.length = pts % m.slots.length then idx else m.get pts := by
  unfold FrameIndexMap.get FrameIndexMap.set FrameIndexMap.index
  simp only [List.length_set]
  by_cases h : ts % m.slots.length = pts % m.slots.length
  · simp only [h, if_pos rfl]
    rw [List.getD_eq_getElem?_getD, List.getElem?_set_self
      (by exact Nat.mod_lt _ hN)]
    rfl
  · simp only [if_neg h]
    rw [List.getD_eq_getElem?_getD, List.getElem?_set_ne h,
      ← List.getD_eq_getElem?_getD]

theorem FrameIndexMap.get_mkNew (N ts : Nat) :
    (FrameIndexMap.mkNew N).get ts = 0 := by
  simp only [FrameIndexMap.mkNew, FrameIndexMap.get, FrameIndexMap.index,
    List.getD_eq_getElem?_getD, List.getElem?_replicate]
  split <;> rfl

theorem FrameIndexMap.length_get_clear (m : FrameIndexMap) (ts : Nat) :
    (m.get_clear ts).2.slots.length = m.slots.length := by
  simp [FrameIndexMap.get_clear]

theorem applySets_get (ops : List (Nat × Nat)) (m : FrameIndexMap) (pts : Nat)
    (hN : 0 < m.slots.length) :
    (applySets m ops).get pts =
      (lastCongruentIdx m.slots.length pts ops).getD (m.get pts) := by
  induction ops generalizing m with
  | nil => simp [applySets, lastCongruentIdx]
  | cons op rest ih =>
    have hlen : (m.set op.1 op.2).slots.length = m.slots.length :=
      m.length_set op.1 op.2
    have hN' : 0 < (m.set op.1 op.2).slots.length := by rw [hlen]; exact hN
    have step : applySets m (op :: rest) = applySets (m.set op.1 op.2) rest := rfl
    rw [step, ih (m.set op.1 op.2) hN', hlen, m.get_set op.1 op.2 pts hN]
    cases h : lastCongruentIdx m.slots.length pts rest with
    | some j => simp [lastCongruentIdx, h, Option.orElse]
    | none =>
      simp only [lastCongruentIdx, h, Option.orElse, Option.getD]
      by_cases hc : op.1 % m.slots.length = pts % m.slots.length <;> simp [hc]

/-- C1: for every sequence of `set(pts, idx)` calls on a map of capacity
`N > 0`, a subsequent `get(pts)` (and the value returned by
`get_clear(pts)`) is the frame index of the most recent `set` whose
timestamp is congruent to `pts` modulo `N`, regardless of intervening `set`
calls in other congruence classes; and `set` leaves every slot other than
its own `ts mod N` unchanged (`get` is a pure read and changes no slot by
construction). -/
theorem frameIndexMap_last_write_wins (m : FrameIndexMap)
    (ops : List (Nat × Nat)) (pts i : Nat) (hN : 0 < m.slots.length) :
    (lastCongruentIdx m.slots.length pts ops = some i →
      (applySets m ops).get pts = i ∧ ((applySets m ops).get_clear pts).1 = i)
    ∧ (∀ ts idx j, j ≠ ts % m.slots.length →
        (m.set ts idx).slots.getD j 0 = m.slots.getD j 0) := by
  constructor
  · intro h
    have hg := applySets_get ops m pts hN
    rw [h] at hg
    exact ⟨hg, by simpa [FrameIndexMap.get_clear] using hg⟩
  · intro ts idx j hj
    unfold FrameIndexMap.set FrameIndexMap.index
    rw [List.getD_eq_getElem?_getD,
      List.getElem?_set_ne (fun hh => hj hh.symm),
      ← List.getD_eq_getElem?_getD]

/-- Witness for `frameIndexMap_last_write_wins`: capacity 4, writes at
timestamps 1, 5, 2 — timestamps 1 and 5 alias slot `9 % 4 = 1`, and the
most recent of them (5 ↦ 20) wins. -/
theorem frameIndexMap_last_write_wins_witness :
    0 < (FrameIndexMap.mkNew 4).slots.length ∧
    lastCongruentIdx (FrameIndexMap.mkNew 4).slots.length 9
      [(1, 10), (5, 20), (2, 30)] = some 20 ∧
    (applySets (FrameIndexMap.mkNew 4) [(1, 10), (5, 20), (2, 30)]).get 9 = 20 :=
  ⟨by decide, by decide,
    ((frameIndexMap_last_write_wins (FrameIndexMap.mkNew 4)
      [(1, 10), (5, 20), (2, 30)] 9 20 (by decide)).1 (by decide)).1⟩

/-- C3 (code bug): a freshly constructed `FrameIndexMap` does **not** return
the `NullIndex` sentinel for a never-written slot.  The constructor
`m_frameMap(N)` value-initializes the vector's atomics, so every slot starts
at `0`; with capacity 4096 and the never-written pts 5, both `get` and
`get_clear` return `0`, which differs from `NullIndex = 2^64 - 1` — the
caller cannot recognize the frame index as unknown. -/
theorem frameIndexMap_fresh_slot_reads_zero :
    (FrameIndexMap.mkNew 4096).get 5 = 0 ∧
    ((FrameIndexMap.mkNew 4096).get_clear 5).1 = 0 ∧
    (FrameIndexMap.mkNew 4096).get 5 ≠ FrameIndexMap.NullIndex := by
  refine ⟨FrameIndexMap.get_mkNew 4096 5, ?_, ?_⟩
  · simpa [FrameIndexMap.get_clear] using FrameIndexMap.get_mkNew 4096 5
  · rw [FrameIndexMap.get_mkNew 4096 5]
    decide

/-- C6: `get_clear` applied twice in a row to the same slot (no intervening
`set`) returns the empty sentinel the second time: the first `get_clear`
atomically resets the slot to `NullIndex`. -/
theorem frameIndexMap_get_clear_twice (m : FrameIndexMap) (pts : Nat)
    (hN : 0 < m.slots.length) :
    ((m.get_clear pts).2.get_clear pts).1 = FrameIndexMap.NullIndex := by
  unfold FrameIndexMap.get_clear FrameIndexMap.get FrameIndexMap.index
  simp only [List.length_set]
  rw [List.getD_eq_getElem?_getD, List.getElem?_set_self (Nat.mod_lt _ hN)]
  rfl

/-- Witness for `frameIndexMap_get_clear_twice` at capacity 4, pts 5. -/
theorem frameIndexMap_get_clear_twice_witness :
    0 < (FrameIndexMap.mkNew 4).slots.length ∧
    (((FrameIndexMap.mkNew 4).get_clear 5).2.get_clear 5).1 =
      FrameIndexMap.NullIndex :=
  ⟨by decide, frameIndexMap_get_clear_twice (FrameIndexMap.mkNew 4) 5 (by decide)⟩

/-- C2 counterexample: start with a live decoder session (session id 0,
counter 1), report a codec error, then deliver a fresh valid config packet
(positive VPS/SPS/PPS run, config payload) with every external effect
succeeding.  The plugin state is completely unchanged: no new decoder session
is constructed (the ghost session counter stays at 1 and the session object is
the original one), because `OnCodecError` only logs and `QueuePacket` only
builds a session when `m_codecCtx == nullptr`. -/
theorem codec_error_then_config_no_new_session :
    (MediaCodecDecoderPlugin.QueuePacket
        (MediaCodecDecoderPlugin.OnCodecError
          ⟨some ⟨0, FrameIndexMap.mkNew 4096⟩, 1⟩ 2 1)
        ⟨true, some 3, true, 1000⟩ ⟨5, false, true⟩ 7).1 =
      ⟨some ⟨0, FrameIndexMap.mkNew 4096⟩, 1⟩ := rfl

/-- C2 amended: after a decoder-session-level error the error is only
logged — the plugin state, in particular `m_codecCtx`, is untouched — and a
subsequent config packet does **not** construct a new decoder session: as
long as a session exists, `QueuePacket` never constructs one (the session
identity is retained and the construction counter never moves).  A new
session is only ever constructed when no session exists. -/
theorem codec_error_retains_session (s : MediaCodecDecoderPlugin)
    (env : QueueEnv) (p : Packet) (tfi : Nat) (ctx : CodecCtx) (e a : Int)
    (h : s.codecCtx = some ctx) :
    MediaCodecDecoderPlugin.OnCodecError s e a = s ∧
    (MediaCodecDecoderPlugin.QueuePacket s env p tfi).1.nextSessionId =
      s.nextSessionId ∧
    ∃ ctx', (MediaCodecDecoderPlugin.QueuePacket s env p tfi).1.codecCtx =
      some ctx' ∧ ctx'.sessionId = ctx.sessionId := by
  have hctor : MediaCodecDecoderPlugin.ctorPhase s env p = s := by
    simp [MediaCodecDecoderPlugin.ctorPhase, h]
  refine ⟨rfl, ?_, ?_⟩ <;>
  · unfold MediaCodecDecoderPlugin.QueuePacket
    rw [hctor]
    simp only [h]
    cases env.inputBufferId with
    | none => simp [h]
    | some bid =>
      by_cases hbid : bid < 0 <;>
        by_cases hc : p.payloadIsConfig <;>
          simp [h, hbid, hc]

/-- Witness for `codec_error_retains_session` at a concrete live-session
state, error codes 2/1, and a concrete config packet. -/
theorem codec_error_retains_session_witness :
    (⟨some ⟨0, FrameIndexMap.mkNew 4096⟩, 1⟩ :
        MediaCodecDecoderPlugin).codecCtx =
      some ⟨0, FrameIndexMap.mkNew 4096⟩ ∧
    (MediaCodecDecoderPlugin.OnCodecError
        ⟨some ⟨0, FrameIndexMap.mkNew 4096⟩, 1⟩ 2 1 =
      ⟨some ⟨0, FrameIndexMap.mkNew 4096⟩, 1⟩ ∧
    (MediaCodecDecoderPlugin.QueuePacket
        ⟨some ⟨0, FrameIndexMap.mkNew 4096⟩, 1⟩
        ⟨true, some 3, true, 1000⟩ ⟨5, false, true⟩ 7).1.nextSessionId = 1 ∧
    ∃ ctx', (MediaCodecDecoderPlugin.QueuePacket
        ⟨some ⟨0, FrameIndexMap.mkNew 4096⟩, 1⟩
        ⟨true, some 3, true, 1000⟩ ⟨5, false, true⟩ 7).1.codecCtx =
      some ctx' ∧ ctx'.sessionId = 0) :=
  ⟨rfl, codec_error_retains_session _ ⟨true, some 3, true, 1000⟩
    ⟨5, false, true⟩ 7 ⟨0, FrameIndexMap.mkNew 4096⟩ 2 1 rfl⟩

/-- C4: for every packet accepted by `QueuePacket` — a session exists (after
the lazy construction phase) and the input-buffer wait produced a
non-negative buffer id — if the packet is a configuration packet it is
stamped with PTS `0` and no `FrameIndexMap` entry is recorded (the session's
map is unchanged); otherwise it is stamped with the fresh steady-clock
microsecond timestamp `MakePTS()` returned, and
`set(pts, trackingFrameIndex)` is recorded in the map.  Both conclusions are
independent of whether `AMediaCodec_queueInputBuffer` itself then succeeds:
the map write happens before the buffer is submitted. -/
theorem queuePacket_pts_and_frame_map (s : MediaCodecDecoderPlugin)
    (env : QueueEnv) (p : Packet) (tfi : Nat) (ctx : CodecCtx) (bid : Int)
    (hctx : (MediaCodecDecoderPlugin.ctorPhase s env p).codecCtx = some ctx)
    (hbuf : env.inputBufferId = some bid) (hpos : 0 ≤ bid) :
    (p.payloadIsConfig = true →
      (MediaCodecDecoderPlugin.QueuePacket s env p tfi).2.submitted =
        some (0, bid.toNat) ∧
      (MediaCodecDecoderPlugin.QueuePacket s env p tfi).1.codecCtx =
        some ctx)
    ∧ (p.payloadIsConfig = false →
      (MediaCodecDecoderPlugin.QueuePacket s env p tfi).2.submitted =
        some (env.nowUs, bid.toNat) ∧
      (MediaCodecDecoderPlugin.QueuePacket s env p tfi).1.codecCtx =
        some ⟨ctx.sessionId, ctx.frameIndexMap.set env.nowUs tfi⟩) := by
  have hbid : ¬ bid < 0 := not_lt.mpr hpos
  constructor <;>
  · intro hc
    unfold MediaCodecDecoderPlugin.QueuePacket
    simp only [hctx, hbuf]
    simp [hbid, hc]

/-- Witness for `queuePacket_pts_and_frame_map`: a live session, buffer id 3
obtained, a data (non-config) packet with tracking frame index 7 at clock
1000 µs. -/
theorem queuePacket_pts_and_frame_map_witness :
    (MediaCodecDecoderPlugin.ctorPhase
        ⟨some ⟨0, FrameIndexMap.mkNew 4096⟩, 1⟩
        ⟨true, some 3, true, 1000⟩ ⟨0, false, false⟩).codecCtx =
      some ⟨0, FrameIndexMap.mkNew 4096⟩ ∧
    (⟨true, some 3, true, 1000⟩ : QueueEnv).inputBufferId = some 3 ∧
    (0 : Int) ≤ 3 ∧
    ((⟨0, false, false⟩ : Packet).payloadIsConfig = false →
      (MediaCodecDecoderPlugin.QueuePacket
          ⟨some ⟨0, FrameIndexMap.mkNew 4096⟩, 1⟩
          ⟨true, some 3, true, 1000⟩ ⟨0, false, false⟩ 7).2.submitted =
        some (1000, (3 : Int).toNat) ∧
      (MediaCodecDecoderPlugin.QueuePacket
          ⟨some ⟨0, FrameIndexMap.mkNew 4096⟩, 1⟩
          ⟨true, some 3, true, 1000⟩ ⟨0, false, false⟩ 7).1.codecCtx =
        some ⟨0, (FrameIndexMap.mkNew 4096).set 1000 7⟩) :=
  ⟨rfl, rfl, by decide,
    (queuePacket_pts_and_frame_map ⟨some ⟨0, FrameIndexMap.mkNew 4096⟩, 1⟩
      ⟨true, some 3, true, 1000⟩ ⟨0, false, false⟩ 7
      ⟨0, FrameIndexMap.mkNew 4096⟩ 3 rfl rfl (by decide)).2⟩

/-- C5: for every output buffer dequeued by the `Run` loop, the frame index
is looked up with `get` (not `get_clear`) so the `FrameIndexMap` is left
unchanged; the `decoderOutput(frameIndex)` latency call-out is made if and
only if the lookup resolved to a non-sentinel index (and then carries exactly
that index); and the output buffer is released to the display surface in
either case. -/
theorem run_iteration_get_without_clear (m : FrameIndexMap)
    (b : OutputBufferId) :
    (RunIteration m b).1 = m ∧
    (RunIteration m b).2.decoderOutputEvent =
      (if m.get b.ptsUs ≠ FrameIndexMap.NullIndex then some (m.get b.ptsUs)
       else none) ∧
    ((RunIteration m b).2.decoderOutputEvent ≠ none ↔
      m.get b.ptsUs ≠ FrameIndexMap.NullIndex) ∧
    (RunIteration m b).2.releasedBuffer = some b.bufferId := by
  refine ⟨rfl, rfl, ?_, rfl⟩
  by_cases h : m.get b.ptsUs ≠ FrameIndexMap.NullIndex <;>
    simp [RunIteration, h]

-- per-axis facts about the foveation derivation

theorem foveAxis_mul32 (W c s e : ℚ) :
    32 ∣ (foveAxis W c s e).optimizedEyeSizeAligned := by
  unfold foveAxis
  exact dvd_mul_left 32 _

theorem foveAxis_ratio_bounds (W c s e : ℚ) (hW : 0 < W) (hc0 : 0 < c)
    (hc1 : c < 1) (he : 1 < e) (hbig : 2 * e ≤ c * W) :
    0 < (foveAxis W c s e).eyeSizeRatioAligned ∧
      (foveAxis W c s e).eyeSizeRatioAligned ≤ 1 := by
  have he0 : (0 : ℚ) < e := lt_trans zero_lt_one he
  have hedge : 0 < W - c * W := by nlinarith
  unfold foveAxis
  simp only
  set k : ℤ := ⌈(W - c * W) / (e * 2)⌉ with hkdef
  have hkpos : 0 < k := Int.ceil_pos.mpr (by positivity)
  have hkq : (0 : ℚ) < (k : ℚ) := by exact_mod_cast hkpos
  have he2 : (0 : ℚ) < e * 2 := by positivity
  have hcancel : (W - c * W) / (e * 2) * (e * 2) = W - c * W :=
    div_mul_cancel₀ _ (ne_of_gt he2)
  have hkub : (k : ℚ) * (e * 2) < W := by
    have h1 : (k : ℚ) < (W - c * W) / (e * 2) + 1 := Int.ceil_lt_add_one _
    have h2 : (k : ℚ) * (e * 2) < ((W - c * W) / (e * 2) + 1) * (e * 2) :=
      mul_lt_mul_of_pos_right h1 he2
    rw [add_mul, hcancel, one_mul] at h2
    nlinarith
  set a : ℚ := 1 - (k : ℚ) * (e * 2) / W with hadef
  have ha0 : 0 < a := by
    have : (k : ℚ) * (e * 2) / W < 1 := (div_lt_one hW).mpr hkub
    simp only [hadef]
    linarith
  have ha1 : a < 1 := by
    have : 0 < (k : ℚ) * (e * 2) / W := div_pos (mul_pos hkq he2) hW
    simp only [hadef]
    linarith
  set scale : ℚ := a + (1 - a) / e with hsdef
  have hscale : 0 < scale :=
    add_pos ha0 (div_pos (by linarith) he0)
  set w : ℚ := scale * W with hwdef
  have hw : 0 < w := mul_pos hscale hW
  set A : ℤ := ⌈w / 32⌉ with hAdef
  have hA : 0 < A := Int.ceil_pos.mpr (by positivity)
  have hcast : ((A.toNat * 32 : ℕ) : ℚ) = (A : ℚ) * 32 := by
    push_cast
    exact_mod_cast congrArg (fun z : ℤ => z * 32) (Int.toNat_of_nonneg hA.le)
  have hwle : w ≤ (A : ℚ) * 32 := by
    have h1 : w / 32 ≤ (A : ℚ) := Int.le_ceil _
    have h2 : (0 : ℚ) < 32 := by norm_num
    calc w = w / 32 * 32 := by field_simp
    _ ≤ (A : ℚ) * 32 := mul_le_mul_of_nonneg_right h1 (by norm_num)
  have haligned : (0 : ℚ) < ((A.toNat * 32 : ℕ) : ℚ) := by
    rw [hcast]
    positivity
  constructor
  · exact div_pos hw haligned
  · rw [hcast] at haligned ⊢
    exact (div_le_one haligned).mpr hwle

-- helper lemmas about the low-pass filters

theorem Vec3.axpby_self (a : ℝ) (v : Vec3) : Vec3.axpby a v (1 - a) v = v := by
  cases v
  simp only [Vec3.axpby, Vec3.mk.injEq]
  refine ⟨by ring, by ring, by ring⟩

theorem Quat.slerp_self (t : ℝ) (q : Quat) (h : q.dot q = 1) :
    q.slerp t q = q := by
  unfold Quat.slerp
  rw [h]
  dsimp only
  rw [abs_one]
  rw [if_pos (le_refl (1 : ℝ))]
  rw [if_neg (by norm_num : ¬ (1 : ℝ) < 0)]
  cases q
  simp only [Quat.mk.injEq]
  refine ⟨by ring, by ring, by ring, by ring⟩

theorem Vector3LowPassFilter.v3lp_filter_firstTime (v0 x : Vec3) (a : ℝ) :
    (⟨v0, true⟩ : Vector3LowPassFilter).filter x a = (x, ⟨x, false⟩) := by
  unfold Vector3LowPassFilter.filter
  simp only [if_true]
  rw [Vec3.axpby_self]

theorem QuaternionLowPassFilter.qlp_filter_firstTime (q0 x : Quat) (a : ℝ)
    (h : x.dot x = 1) :
    (⟨q0, true⟩ : QuaternionLowPassFilter).filter x a = (x, ⟨x, false⟩) := by
  unfold QuaternionLowPassFilter.filter
  simp only [if_true]
  rw [Quat.slerp_self a x h]

/-- Any `Vector3OneEuroFilter` whose three `_firstTime` flags are set (fresh
or just reset) returns its input unchanged and ends in the same state a fresh
filter would. -/
theorem Vector3OneEuroFilter.v3oe_filter_firstTime (xh dh : Vec3)
    (p : OneEuroParams) (dt : ℝ) (x : Vec3) :
    (⟨true, ⟨xh, true⟩, ⟨dh, true⟩, p⟩ : Vector3OneEuroFilter).filter dt x =
      (x, ⟨false, ⟨x, false⟩, ⟨⟨0, 0, 0⟩, false⟩, p⟩) := by
  unfold Vector3OneEuroFilter.filter
  simp only [if_true, Vector3Filterable.dxIdentity]
  rw [Vector3LowPassFilter.v3lp_filter_firstTime dh ⟨0, 0, 0⟩,
    Vector3LowPassFilter.v3lp_filter_firstTime xh x]

/-- Quaternion analogue of `Vector3OneEuroFilter.v3oe_filter_firstTime`, for unit
quaternion inputs (the orientation signal's domain). -/
theorem QuatOneEuroFilter.qoe_filter_firstTime (xh dh : Quat)
    (p : OneEuroParams) (dt : ℝ) (x : Quat) (h : x.dot x = 1) :
    (⟨true, ⟨xh, true⟩, ⟨dh, true⟩, p⟩ : QuatOneEuroFilter).filter dt x =
      (x, ⟨false, ⟨x, false⟩, ⟨Quat.identity, false⟩, p⟩) := by
  unfold QuatOneEuroFilter.filter
  simp only [if_true, QuaternionFilterable.dxIdentity]
  rw [QuaternionLowPassFilter.qlp_filter_firstTime dh Quat.identity _
    (by norm_num [Quat.dot, Quat.identity]),
    QuaternionLowPassFilter.qlp_filter_firstTime xh x _ h]

/-- C7: for both `OneEuroFilter` instantiations and every `dt > 0`, the first
`filter(dt, x)` call on fresh state returns `x` unchanged, and `reset()`
followed by a `filter` call behaves exactly as a first call on a fresh filter
with the same parameters — identical return value *and* identical resulting
state, so no synthetic derivative spike can enter later calls.  (For the
quaternion instantiation the input ranges over unit quaternions, the
orientation signal's domain.) -/
theorem one_euro_first_call_and_reset (p : OneEuroParams) (dt : ℝ)
    (hdt : 0 < dt) :
    (∀ x : Vec3, (Vector3OneEuroFilter.mk0 p).filter dt x =
      (x, ⟨false, ⟨x, false⟩, ⟨⟨0, 0, 0⟩, false⟩, p⟩))
    ∧ (∀ (f : Vector3OneEuroFilter) (x : Vec3),
        f.reset.filter dt x = (Vector3OneEuroFilter.mk0 f.params).filter dt x)
    ∧ (∀ x : Quat, x.dot x = 1 →
        (QuatOneEuroFilter.mk0 p).filter dt x =
          (x, ⟨false, ⟨x, false⟩, ⟨Quat.identity, false⟩, p⟩))
    ∧ (∀ (f : QuatOneEuroFilter) (x : Quat), x.dot x = 1 →
        f.reset.filter dt x = (QuatOneEuroFilter.mk0 f.params).filter dt x) := by
  refine ⟨?_, ?_, ?_, ?_⟩
  · intro x
    exact Vector3OneEuroFilter.v3oe_filter_firstTime ⟨0, 0, 0⟩ ⟨0, 0, 0⟩ p dt x
  · intro f x
    obtain ⟨ft, ⟨xh, xft⟩, ⟨dh, dft⟩, pp⟩ := f
    show (⟨true, ⟨xh, true⟩, ⟨dh, true⟩, pp⟩ :
        Vector3OneEuroFilter).filter dt x =
      (⟨true, ⟨⟨0, 0, 0⟩, true⟩, ⟨⟨0, 0, 0⟩, true⟩, pp⟩ :
        Vector3OneEuroFilter).filter dt x
    rw [Vector3OneEuroFilter.v3oe_filter_firstTime,
      Vector3OneEuroFilter.v3oe_filter_firstTime]
  · intro x hx
    exact QuatOneEuroFilter.qoe_filter_firstTime Quat.identity Quat.identity p dt
      x hx
  · intro f x hx
    obtain ⟨ft, ⟨xh, xft⟩, ⟨dh, dft⟩, pp⟩ := f
    show (⟨true, ⟨xh, true⟩, ⟨dh, true⟩, pp⟩ : QuatOneEuroFilter).filter dt x =
      (⟨true, ⟨Quat.identity, true⟩, ⟨Quat.identity, true⟩, pp⟩ :
        QuatOneEuroFilter).filter dt x
    rw [QuatOneEuroFilter.qoe_filter_firstTime xh dh pp dt x hx,
      QuatOneEuroFilter.qoe_filter_firstTime Quat.identity Quat.identity pp dt x hx]

/-- Witness for `one_euro_first_call_and_reset` at `dt = 1`,
`params = ⟨1, 1/2, 1⟩`, vector input `(1, 2, 3)` and the identity unit
quaternion. -/
theorem one_euro_first_call_and_reset_witness :
    (0 : ℝ) < 1 ∧
    (Vector3OneEuroFilter.mk0 ⟨1, 1 / 2, 1⟩).filter 1 ⟨1, 2, 3⟩ =
      (⟨1, 2, 3⟩, ⟨false, ⟨⟨1, 2, 3⟩, false⟩, ⟨⟨0, 0, 0⟩, false⟩,
        ⟨1, 1 / 2, 1⟩⟩) ∧
    Quat.dot Quat.identity Quat.identity = 1 ∧
    (QuatOneEuroFilter.mk0 ⟨1, 1 / 2, 1⟩).filter 1 Quat.identity =
      (Quat.identity, ⟨false, ⟨Quat.identity, false⟩, ⟨Quat.identity, false⟩,
        ⟨1, 1 / 2, 1⟩⟩) :=
  ⟨one_pos,
    (one_euro_first_call_and_reset ⟨1, 1 / 2, 1⟩ 1 one_pos).1 ⟨1, 2, 3⟩,
    by norm_num [Quat.dot, Quat.identity],
    (one_euro_first_call_and_reset ⟨1, 1 / 2, 1⟩ 1 one_pos).2.2.1
      Quat.identity (by norm_num [Quat.dot, Quat.identity])⟩

-- beta = 0 degenerate case: one filter step collapses to the plain low-pass

theorem Vector3OneEuroFilter.v3oe_filter_beta_zero (f : Vector3OneEuroFilter)
    (dt : ℝ) (x : Vec3) (hb : f.params.beta = 0) :
    f.filter dt x =
      ((f.xfilt.filter x (oneEuroAlpha dt f.params.mincutoff)).1,
       ⟨false, (f.xfilt.filter x (oneEuroAlpha dt f.params.mincutoff)).2,
        (f.dxfilt.filter
          (if f.firstTime then Vector3Filterable.dxIdentity
           else Vector3Filterable.computeDerivative f.xfilt.hatxprev x dt)
          (oneEuroAlpha dt f.params.dcutoff)).2, f.params⟩) := by
  unfold Vector3OneEuroFilter.filter
  rw [hb]
  simp only [zero_mul, add_zero]

theorem QuatOneEuroFilter.qoe_filter_beta_zero (f : QuatOneEuroFilter)
    (dt : ℝ) (x : Quat) (hb : f.params.beta = 0) :
    f.filter dt x =
      ((f.xfilt.filter x (oneEuroAlpha dt f.params.mincutoff)).1,
       ⟨false, (f.xfilt.filter x (oneEuroAlpha dt f.params.mincutoff)).2,
        (f.dxfilt.filter
          (if f.firstTime then QuaternionFilterable.dxIdentity
           else QuaternionFilterable.computeDerivative f.xfilt.hatxprev x dt)
          (oneEuroAlpha dt f.params.dcutoff)).2, f.params⟩) := by
  unfold QuatOneEuroFilter.filter
  rw [hb]
  simp only [zero_mul, add_zero]

theorem Vector3OneEuroFilter.v3oe_run_beta_zero (xs : List Vec3) (dt : ℝ) :
    ∀ (f : Vector3OneEuroFilter) (g : Vector3LowPassFilter),
      f.params.beta = 0 → f.xfilt = g →
      (f.run dt xs).1 =
        (g.run (oneEuroAlpha dt f.params.mincutoff) xs).1 := by
  induction xs with
  | nil => intro f g hb hx; rfl
  | cons x xs ih =>
    intro f g hb hx
    show (f.filter dt x).1 :: ((f.filter dt x).2.run dt xs).1 =
      (g.filter x (oneEuroAlpha dt f.params.mincutoff)).1 ::
        ((g.filter x (oneEuroAlpha dt f.params.mincutoff)).2.run
          (oneEuroAlpha dt f.params.mincutoff) xs).1
    rw [Vector3OneEuroFilter.v3oe_filter_beta_zero f dt x hb, hx]
    exact congrArg _ (ih _ _ hb rfl)

theorem QuatOneEuroFilter.qoe_run_beta_zero (qs : List Quat) (dt : ℝ) :
    ∀ (f : QuatOneEuroFilter) (g : QuaternionLowPassFilter),
      f.params.beta = 0 → f.xfilt = g →
      (f.run dt qs).1 =
        (g.run (oneEuroAlpha dt f.params.mincutoff) qs).1 := by
  induction qs with
  | nil => intro f g hb hx; rfl
  | cons x qs ih =>
    intro f g hb hx
    show (f.filter dt x).1 :: ((f.filter dt x).2.run dt qs).1 =
      (g.filter x (oneEuroAlpha dt f.params.mincutoff)).1 ::
        ((g.filter x (oneEuroAlpha dt f.params.mincutoff)).2.run
          (oneEuroAlpha dt f.params.mincutoff) qs).1
    rw [QuatOneEuroFilter.qoe_filter_beta_zero f dt x hb, hx]
    exact congrArg _ (ih _ _ hb rfl)

/-- C8: for every input sequence and every `dt > 0`, a `OneEuroFilter`
configured with `beta = 0` produces exactly the outputs of the plain low-pass
filter with fixed cutoff `mincutoff` (`alpha` computed from `dt` and
`mincutoff` only) — the output is independent of the signal's derivative
magnitude.  Holds for both instantiations. -/
theorem one_euro_beta_zero_fixed_cutoff (p : OneEuroParams) (dt : ℝ)
    (hb : p.beta = 0) (hdt : 0 < dt) (xs : List Vec3) (qs : List Quat) :
    ((Vector3OneEuroFilter.mk0 p).run dt xs).1 =
      (Vector3LowPassFilter.init.run (oneEuroAlpha dt p.mincutoff) xs).1 ∧
    ((QuatOneEuroFilter.mk0 p).run dt qs).1 =
      (QuaternionLowPassFilter.init.run (oneEuroAlpha dt p.mincutoff) qs).1 :=
  ⟨Vector3OneEuroFilter.v3oe_run_beta_zero xs dt (Vector3OneEuroFilter.mk0 p)
      Vector3LowPassFilter.init hb rfl,
   QuatOneEuroFilter.qoe_run_beta_zero qs dt (QuatOneEuroFilter.mk0 p)
      QuaternionLowPassFilter.init hb rfl⟩

/-- Witness for `one_euro_beta_zero_fixed_cutoff` with
`params = ⟨1, 0, 1⟩`, `dt = 1`, a one-element vector sequence and a
one-element quaternion sequence. -/
theorem one_euro_beta_zero_fixed_cutoff_witness :
    (⟨1, 0, 1⟩ : OneEuroParams).beta = 0 ∧ (0 : ℝ) < 1 ∧
    ((Vector3OneEuroFilter.mk0 ⟨1, 0, 1⟩).run 1 [⟨1, 2, 3⟩]).1 =
      (Vector3LowPassFilter.init.run (oneEuroAlpha 1 1) [⟨1, 2, 3⟩]).1 ∧
    ((QuatOneEuroFilter.mk0 ⟨1, 0, 1⟩).run 1 [Quat.identity]).1 =
      (QuaternionLowPassFilter.init.run (oneEuroAlpha 1 1)
        [Quat.identity]).1 :=
  ⟨rfl, one_pos,
    (one_euro_beta_zero_fixed_cutoff ⟨1, 0, 1⟩ 1 rfl one_pos [⟨1, 2, 3⟩]
      [Quat.identity]).1,
    (one_euro_beta_zero_fixed_cutoff ⟨1, 0, 1⟩ 1 rfl one_pos [⟨1, 2, 3⟩]
      [Quat.identity]).2⟩

-- normalization facts for the quaternion derivative

theorem Quat.dot_self_nonneg (q : Quat) : 0 ≤ q.dot q := by
  unfold Quat.dot
  nlinarith [mul_self_nonneg q.x, mul_self_nonneg q.y, mul_self_nonneg q.z,
    mul_self_nonneg q.w]

theorem Quat.dot_self_pos_of_ne_zero (q : Quat) (h : q ≠ ⟨0, 0, 0, 0⟩) :
    0 < q.dot q := by
  rcases lt_or_eq_of_le (Quat.dot_self_nonneg q) with hlt | heq
  · exact hlt
  · exfalso
    apply h
    have hz : q.x * q.x + q.y * q.y + q.z * q.z + q.w * q.w = 0 := heq.symm
    have hx : q.x = 0 := mul_self_eq_zero.mp (le_antisymm
      (by nlinarith [mul_self_nonneg q.y, mul_self_nonneg q.z,
        mul_self_nonneg q.w]) (mul_self_nonneg q.x))
    have hy : q.y = 0 := mul_self_eq_zero.mp (le_antisymm
      (by nlinarith [mul_self_nonneg q.x, mul_self_nonneg q.z,
        mul_self_nonneg q.w]) (mul_self_nonneg q.y))
    have hz' : q.z = 0 := mul_self_eq_zero.mp (le_antisymm
      (by nlinarith [mul_self_nonneg q.x, mul_self_nonneg q.y,
        mul_self_nonneg q.w]) (mul_self_nonneg q.z))
    have hw : q.w = 0 := mul_self_eq_zero.mp (le_antisymm
      (by nlinarith [mul_self_nonneg q.x, mul_self_nonneg q.y,
        mul_self_nonneg q.z]) (mul_self_nonneg q.w))
    calc q = ⟨q.x, q.y, q.z, q.w⟩ := rfl
    _ = ⟨0, 0, 0, 0⟩ := by rw [hx, hy, hz', hw]

theorem Quat.normalized_dot_self (q : Quat) (h : 0 < q.dot q) :
    q.normalized.dot q.normalized = 1 := by
  have h0 : 0 ≤ q.dot q := h.le
  have hs : Real.sqrt (q.dot q) * Real.sqrt (q.dot q) = q.dot q :=
    Real.mul_self_sqrt h0
  have hspos : 0 < Real.sqrt (q.dot q) := Real.sqrt_pos.mpr h
  show q.x / Real.sqrt (q.dot q) * (q.x / Real.sqrt (q.dot q)) +
      q.y / Real.sqrt (q.dot q) * (q.y / Real.sqrt (q.dot q)) +
      q.z / Real.sqrt (q.dot q) * (q.z / Real.sqrt (q.dot q)) +
      q.w / Real.sqrt (q.dot q) * (q.w / Real.sqrt (q.dot q)) = 1
  rw [div_mul_div_comm, div_mul_div_comm, div_mul_div_comm, div_mul_div_comm,
    div_add_div_same, div_add_div_same, div_add_div_same, hs]
  exact div_self (ne_of_gt h)

/-- C10: for unit quaternions `prev` and `current` and `dt > 0` with nonzero
component-scaled difference quaternion,
`QuaternionFilterable::computeDerivative` returns a unit (normalized)
quaternion, so its scalar component lies in `[-1, 1]` and
`computeDerivativeMagnitude`'s `2 * acos(w)` never evaluates `acos` outside
its domain (no NaN adaptive cutoff from this source). -/
theorem quat_compute_derivative_unit (prev current : Quat) (dt : ℝ)
    (hprev : prev.dot prev = 1) (hcur : current.dot current = 1)
    (hdt : 0 < dt)
    (hnz : QuaternionFilterable.scaledDeriv prev current dt ≠ ⟨0, 0, 0, 0⟩) :
    (QuaternionFilterable.computeDerivative prev current dt).dot
      (QuaternionFilterable.computeDerivative prev current dt) = 1 ∧
    -1 ≤ (QuaternionFilterable.computeDerivative prev current dt).w ∧
    (QuaternionFilterable.computeDerivative prev current dt).w ≤ 1 := by
  have hq : 0 < (QuaternionFilterable.scaledDeriv prev current dt).dot
      (QuaternionFilterable.scaledDeriv prev current dt) :=
    Quat.dot_self_pos_of_ne_zero _ hnz
  have hdot1 : (QuaternionFilterable.computeDerivative prev current dt).dot
      (QuaternionFilterable.computeDerivative prev current dt) = 1 :=
    Quat.normalized_dot_self _ hq
  set d := QuaternionFilterable.computeDerivative prev current dt with hddef
  have hexp : d.x * d.x + d.y * d.y + d.z * d.z + d.w * d.w = 1 := hdot1
  refine ⟨hdot1, ?_, ?_⟩
  · nlinarith [mul_self_nonneg d.x, mul_self_nonneg d.y, mul_self_nonneg d.z,
      sq_nonneg (d.w + 1)]
  · nlinarith [mul_self_nonneg d.x, mul_self_nonneg d.y, mul_self_nonneg d.z,
      sq_nonneg (d.w - 1)]

/-- Witness for `quat_compute_derivative_unit` at `prev = current = identity`,
`dt = 1`: the scaled difference quaternion is `(0, 0, 0, 1) ≠ 0`. -/
theorem quat_compute_derivative_unit_witness :
    Quat.dot Quat.identity Quat.identity = 1 ∧ (0 : ℝ) < 1 ∧
    QuaternionFilterable.scaledDeriv Quat.identity Quat.identity 1 ≠
      ⟨0, 0, 0, 0⟩ ∧
    (QuaternionFilterable.computeDerivative Quat.identity Quat.identity 1).dot
      (QuaternionFilterable.computeDerivative Quat.identity Quat.identity 1) =
      1 := by
  have hid : Quat.dot Quat.identity Quat.identity = 1 := by
    norm_num [Quat.dot, Quat.identity]
  have hsd : QuaternionFilterable.scaledDeriv Quat.identity Quat.identity 1 =
      ⟨0, 0, 0, 1⟩ := by
    unfold QuaternionFilterable.scaledDeriv Quat.inverse Quat.mul
    rw [hid]
    rw [if_pos (by norm_num : (0 : ℝ) < 1)]
    simp only [Quat.identity, Quat.mk.injEq]
    norm_num
  have hnz : QuaternionFilterable.scaledDeriv Quat.identity Quat.identity 1 ≠
      ⟨0, 0, 0, 0⟩ := by
    rw [hsd]
    intro hcon
    have := congrArg Quat.w hcon
    norm_num at this
  exact ⟨hid, one_pos, hnz,
    (quat_compute_derivative_unit Quat.identity Quat.identity 1 hid hid
      one_pos hnz).1⟩

/-- C9 counterexample: the configuration `targetEyeSize = (20, 20)`,
`centerSize = (1/2, 1/2)`, `centerShift = (0, 0)`, `edgeRatio = (16, 16)`
satisfies all of the claim's hypotheses (positive target size, center ratios
in `(0,1)`, edge ratios `> 1`), yet the derived residual `eyeSizeRatio.x` is
not in `(0, 1]`: the aligned center size is `1 - 32/20 = -3/5`, the optimized
eye width is `-10`, the rounded width is `0`, and the residual ratio is a
division by zero (`0` in the exact model, `-inf` in the C++ float
arithmetic) — in either case not positive. -/
theorem fove_ratio_counterexample :
    (0 : ℚ) < 20 ∧ (0 : ℚ) < 1 / 2 ∧ (1 / 2 : ℚ) < 1 ∧ (1 : ℚ) < 16 ∧
    (MakeFoveatedDecodeBaseParams ⟨20, 20⟩ ⟨1 / 2, 1 / 2⟩ ⟨0, 0⟩
        ⟨16, 16⟩).eyeSizeRatio.x = 0 ∧
    ¬ (0 < (MakeFoveatedDecodeBaseParams ⟨20, 20⟩ ⟨1 / 2, 1 / 2⟩ ⟨0, 0⟩
        ⟨16, 16⟩).eyeSizeRatio.x) := by
  have hval : (MakeFoveatedDecodeBaseParams ⟨20, 20⟩ ⟨1 / 2, 1 / 2⟩ ⟨0, 0⟩
      ⟨16, 16⟩).eyeSizeRatio.x = 0 := by
    show (foveAxis 20 (1 / 2) 0 16).eyeSizeRatioAligned = 0
    have h1 : ⌈((20 : ℚ) - 1 / 2 * 20) / (16 * 2)⌉ = (1 : ℤ) := by
      rw [Int.ceil_eq_iff]
      norm_num
    unfold foveAxis
    simp only [h1]
    norm_num
    exact Int.ceil_le.mpr (by norm_num)
  refine ⟨by norm_num, by norm_num, by norm_num, by norm_num, hval, ?_⟩
  rw [hval]
  exact lt_irrefl 0

/-- C9 amended: for every foveation configuration with positive target eye
size, center-size ratios in `(0,1)` and edge ratios `> 1`, the derivation is
deterministic (it is a pure function: identical inputs give identical
outputs) and the rounded optimized eye size is a multiple of 32 pixels on
both axes; the residual `eyeSizeRatio` lies in `(0, 1]` on an axis provided
additionally the target is large enough on that axis, namely
`2 * edgeRatio ≤ centerSize * targetEyeSize` (which keeps the aligned center
size, and hence the optimized eye size, positive).  Without that extra bound
the residual ratio can leave `(0, 1]`, as `fove_ratio_counterexample`
shows. -/
theorem fove_params_deterministic_aligned_ratio (W c s e : Vec2)
    (hWx : 0 < W.x) (hWy : 0 < W.y)
    (hcx0 : 0 < c.x) (hcx1 : c.x < 1) (hcy0 : 0 < c.y) (hcy1 : c.y < 1)
    (hex : 1 < e.x) (hey : 1 < e.y) :
    MakeFoveatedDecodeBaseParams W c s e = MakeFoveatedDecodeBaseParams W c s e
    ∧ 32 ∣ (foveAxis W.x c.x s.x e.x).optimizedEyeSizeAligned
    ∧ 32 ∣ (foveAxis W.y c.y s.y e.y).optimizedEyeSizeAligned
    ∧ (2 * e.x ≤ c.x * W.x →
        0 < (MakeFoveatedDecodeBaseParams W c s e).eyeSizeRatio.x ∧
        (MakeFoveatedDecodeBaseParams W c s e).eyeSizeRatio.x ≤ 1)
    ∧ (2 * e.y ≤ c.y * W.y →
        0 < (MakeFoveatedDecodeBaseParams W c s e).eyeSizeRatio.y ∧
        (MakeFoveatedDecodeBaseParams W c s e).eyeSizeRatio.y ≤ 1) := by
  refine ⟨rfl, foveAxis_mul32 W.x c.x s.x e.x, foveAxis_mul32 W.y c.y s.y e.y,
    ?_, ?_⟩
  · intro hbig
    exact foveAxis_ratio_bounds W.x c.x s.x e.x hWx hcx0 hcx1 hex hbig
  · intro hbig
    exact foveAxis_ratio_bounds W.y c.y s.y e.y hWy hcy0 hcy1 hey hbig

/-- Witness for `fove_params_deterministic_aligned_ratio`: a realistic
configuration, `targetEyeSize = (3200, 3200)`, `centerSize = (1/2, 1/2)`,
`centerShift = (1/10, 1/10)`, `edgeRatio = (2, 2)`; here `2 * 2 ≤ 1600` on
both axes, so the residual ratio is in `(0, 1]` on both axes. -/
theorem fove_params_witness :
    (0 : ℚ) < 3200 ∧ (0 : ℚ) < 1 / 2 ∧ (1 / 2 : ℚ) < 1 ∧ (1 : ℚ) < 2 ∧
    (2 * (2 : ℚ) ≤ 1 / 2 * 3200) ∧
    (32 ∣ (foveAxis 3200 (1 / 2) (1 / 10) 2).optimizedEyeSizeAligned ∧
      0 < (MakeFoveatedDecodeBaseParams ⟨3200, 3200⟩ ⟨1 / 2, 1 / 2⟩
            ⟨1 / 10, 1 / 10⟩ ⟨2, 2⟩).eyeSizeRatio.x ∧
      (MakeFoveatedDecodeBaseParams ⟨3200, 3200⟩ ⟨1 / 2, 1 / 2⟩
            ⟨1 / 10, 1 / 10⟩ ⟨2, 2⟩).eyeSizeRatio.x ≤ 1) := by
  have h := fove_params_deterministic_aligned_ratio ⟨3200, 3200⟩
    ⟨1 / 2, 1 / 2⟩ ⟨1 / 10, 1 / 10⟩ ⟨2, 2⟩
    (by norm_num) (by norm_num) (by norm_num) (by norm_num) (by norm_num)
    (by norm_num) (by norm_num) (by norm_num)
  exact ⟨by norm_num, by norm_num, by norm_num, by norm_num, by norm_num,
    h.2.1, h.2.2.2.1 (by norm_num)⟩

end ALXR
